import Mathlib

/-!
Shallow embedding of the template-driven receipt-extraction engine of
`src/functions/src/index.ts` (the `/api/admin/purchase-templates/test`
handler, lines 131-200), together with models of the JavaScript runtime
primitives it relies on (`String.prototype.trim`, `String.prototype.replace`
with the two fixed character-class regexes, `Number(...)` string conversion,
and `RegExp` compilation/matching for the always-used flag sets `im`/`gim`).

Numbers are modelled as exact rationals (`ℚ`): every JavaScript number the
engine produces comes from parsing a decimal digit string, and the claims
under study concern exactness, sign and nullness, not float rounding.
`Number(...)` is modelled as `Option ℚ` where `none` stands for `NaN`;
the non-finite results (`Infinity` from the literal word or from magnitude
overflow) are outside the modelled domain and also map to `none`.
-/

namespace ReceiptSpec

/-- Model of the characters the JavaScript runtime treats as WhiteSpace or
LineTerminator for `String.prototype.trim` and `Number` conversion. -/
def jsWs (c : Char) : Bool :=
  c = ' ' || c = '\t' || c = '\n' || c = '\r' || c = '\x0b' || c = '\x0c' ||
  c = '\u00a0' || c = '\u1680' ||
  ('\u2000' ≤ c && c ≤ '\u200a') ||
  c = '\u2028' || c = '\u2029' || c = '\u202f' || c = '\u205f' ||
  c = '\u3000' || c = '\ufeff'

/-- `String.prototype.trim` on a character list: drop leading and trailing
whitespace. -/
def jsTrimList (l : List Char) : List Char :=
  ((l.dropWhile jsWs).reverse.dropWhile jsWs).reverse

/-- Model of JavaScript `s.trim()`. -/
def jsTrim (s : String) : String := ⟨jsTrimList s.data⟩

/-- Numeric value of a decimal digit character. -/
def digitVal (c : Char) : Nat := c.toNat - 48

/-- Read a maximal run of decimal digits, returning the accumulated value,
the number of digits read, and the remaining characters. -/
def readDigitsAux : Nat → Nat → List Char → Nat × Nat × List Char
  | acc, n, [] => (acc, n, [])
  | acc, n, c :: cs =>
    if c.isDigit then readDigitsAux (acc * 10 + digitVal c) (n + 1) cs
    else (acc, n, c :: cs)

/-- The digits of an exponent part: at least one digit and nothing after
them (a trailing character makes the whole conversion `NaN`). -/
def expDigits (l : List Char) : Option Nat :=
  let t := readDigitsAux 0 0 l
  if t.2.1 = 0 then none
  else if t.2.2 ≠ [] then none
  else some t.1

/-- Parse the optional exponent tail of a decimal literal into a signed
exponent; any character other than a well-formed exponent part makes the
conversion `NaN`. -/
def parseExpTail : List Char → Option Int
  | [] => some 0
  | c :: rest =>
    if c = 'e' || c = 'E' then
      match rest with
      | '+' :: r => (expDigits r).map Int.ofNat
      | '-' :: r => (expDigits r).map (fun v => Int.negOfNat v)
      | r => (expDigits r).map Int.ofNat
    else none

/-- The value `(ip + fp / 10 ^ nf) * 10 ^ e` built with a single `mkRat`
so that it is kernel-computable (the rational operations of the field
structure are avoided on purpose). -/
def decValue (ip fp nf : Nat) (e : Int) : ℚ :=
  match e with
  | Int.ofNat k => mkRat (((ip * 10 ^ nf + fp) * 10 ^ k : Nat) : Int) (10 ^ nf)
  | Int.negSucc k => mkRat ((ip * 10 ^ nf + fp : Nat) : Int) (10 ^ nf * 10 ^ (k + 1))

/-- The character sequence of the `Infinity` literal. -/
def infinityChars : List Char := ['I', 'n', 'f', 'i', 'n', 'i', 't', 'y']

/-- Unsigned ECMAScript `StrUnsignedDecimalLiteral` (without the non-finite
`Infinity`, which this finite model sends to `none`): digits, optional
fraction, optional exponent; the whole input must be consumed. -/
def parseDecimal (cs : List Char) : Option ℚ :=
  if cs = infinityChars then none
  else
    let t1 := readDigitsAux 0 0 cs
    match t1.2.2 with
    | '.' :: r2 =>
      let t2 := readDigitsAux 0 0 r2
      if t1.2.1 = 0 && t2.2.1 = 0 then none
      else (parseExpTail t2.2.2).map (decValue t1.1 t2.1 t2.2.1)
    | _ =>
      if t1.2.1 = 0 then none
      else (parseExpTail t1.2.2).map (decValue t1.1 0 0)

/-- Hexadecimal digit value. -/
def hexDigit (c : Char) : Option Nat :=
  if c.isDigit then some (digitVal c)
  else if 'a' ≤ c && c ≤ 'f' then some (c.toNat - 87)
  else if 'A' ≤ c && c ≤ 'F' then some (c.toNat - 55)
  else none

/-- Octal digit value. -/
def octDigit (c : Char) : Option Nat :=
  if '0' ≤ c && c ≤ '7' then some (digitVal c) else none

/-- Binary digit value. -/
def binDigit (c : Char) : Option Nat :=
  if c = '0' || c = '1' then some (digitVal c) else none

/-- Read a whole non-decimal integer literal body (after `0x`/`0o`/`0b`):
at least one digit, all characters valid digits of the radix. -/
def readRadix (radix : Nat) (dv : Char → Option Nat) : Nat → Nat → List Char → Option Nat
  | acc, n, [] => if n = 0 then none else some acc
  | acc, n, c :: cs =>
    match dv c with
    | some v => readRadix radix dv (acc * radix + v) (n + 1) cs
    | none => none

/-- Model of JavaScript `Number(s)` for string arguments
(ECMAScript `StringToNumber`), as an exact rational; `none` is `NaN`
(and also stands in for the non-finite values, see the module comment). -/
def jsToNumber (s : String) : Option ℚ :=
  match jsTrimList s.data with
  | [] => some 0
  | '+' :: rest => parseDecimal rest
  | '-' :: rest => (parseDecimal rest).map (fun q => Rat.neg q)
  | '0' :: c :: rest =>
    if c = 'x' || c = 'X' then
      match readRadix 16 hexDigit 0 0 rest with
      | some n => some (mkRat (n : Int) 1)
      | none => none
    else if c = 'o' || c = 'O' then
      match readRadix 8 octDigit 0 0 rest with
      | some n => some (mkRat (n : Int) 1)
      | none => none
    else if c = 'b' || c = 'B' then
      match readRadix 2 binDigit 0 0 rest with
      | some n => some (mkRat (n : Int) 1)
      | none => none
    else parseDecimal ('0' :: c :: rest)
  | cs => parseDecimal cs

/-- The character class kept by the source's first replace,
`.replace(/[^0-9\.\,]/g, '')`: digits, `.` and `,`. -/
def numericKeep (c : Char) : Bool := c.isDigit || c = '.' || c = ','

/-- The two chained replaces the source applies to every money-like capture:
`.replace(/[^0-9\.\,]/g, '').replace(/,/g, '')`. -/
def normalizeNumber (s : String) : String :=
  ⟨(s.data.filter numericKeep).filter (fun c => c ≠ ',')⟩

/-- JavaScript `Number(x) || d`: the parsed number unless it is `NaN` or
`0`, in which case the default `d`. -/
def jsNumOr (v : Option ℚ) (d : ℚ) : ℚ :=
  match v with
  | some q => if q = 0 then d else q
  | none => d

/-- JavaScript `Number(x) || null`: the parsed number unless it is `NaN` or
`0`, in which case `null`. -/
def jsNumOrNull (v : Option ℚ) : Option ℚ :=
  match v with
  | some q => if q = 0 then none else some q
  | none => none

/-! ### Model of JavaScript `RegExp` for the flag sets the source uses

The handler only ever compiles with flags `'im'` (scalar fields) or `'gim'`
(items), so case-insensitivity and multiline behaviour are baked into the
matcher; the `g` flag shows up only in whether the caller asks for the
first match (`text.match`) or for all matches (`text.matchAll`).

The modelled pattern grammar is the ECMAScript subset the engine's
templates use: literal characters, `.`, character classes with ranges and
the `\d \D \w \W \s \S` escapes, escaped punctuation, `^`/`$` (multiline),
alternation, greedy `* + ?`, capturing groups, named capturing groups
`(?<name>...)` and non-capturing groups `(?:...)`. Constructs outside the
subset (backreferences, lookarounds, lazy quantifiers, brace quantifiers,
`\b`, hex/unicode escapes) are treated as compilation failures, which the
engine swallows into "pattern absent" exactly as it swallows syntax
errors. -/

inductive ClsAtom where
  | ch (c : Char)
  | range (lo hi : Char)
  | digit
  | notDigit
  | word
  | notWord
  | space
  | notSpace
deriving DecidableEq, Repr

inductive RNode where
  | eps
  | ch (c : Char)
  | dot
  | cls (neg : Bool) (atoms : List ClsAtom)
  | bol
  | eol
  | seq (a b : RNode)
  | alt (a b : RNode)
  | star (a : RNode)
  | plus (a : RNode)
  | opt (a : RNode)
  | group (i : Nat) (a : RNode)
deriving DecidableEq, Repr

/-- ECMAScript `\w`. -/
def wordChar (c : Char) : Bool :=
  c.isDigit || ('a' ≤ c && c ≤ 'z') || ('A' ≤ c && c ≤ 'Z') || c = '_'

/-- ECMAScript LineTerminator. -/
def lineTerm (c : Char) : Bool :=
  c = '\n' || c = '\r' || c = '\u2028' || c = '\u2029'

/-- Class atoms produced by the `\d \D \w \W \s \S` escapes. -/
def escClassAtom (c : Char) : Option ClsAtom :=
  match c with
  | 'd' => some .digit
  | 'D' => some .notDigit
  | 'w' => some .word
  | 'W' => some .notWord
  | 's' => some .space
  | 'S' => some .notSpace
  | _ => none

/-- Single-character escapes: control letters and escaped punctuation;
letters and digits otherwise (word boundaries, backreferences, hex and
unicode escapes) are outside the modelled subset. -/
def escCharLit (c : Char) : Option Char :=
  match c with
  | 'n' => some '\n'
  | 't' => some '\t'
  | 'r' => some '\r'
  | 'f' => some '\x0c'
  | 'v' => some '\x0b'
  | c => if c.isAlpha || c.isDigit then none else some c

/-- Read one class item: a plain or escaped character (range-eligible,
returned as `some c`) or a class escape such as `\d` (not range-eligible). -/
def readClassItem : List Char → Option (Option Char × ClsAtom × List Char)
  | [] => none
  | ']' :: _ => none
  | '\\' :: [] => none
  | '\\' :: c :: rest =>
    match escClassAtom c with
    | some a => some (none, a, rest)
    | none =>
      match escCharLit c with
      | some d => some (some d, .ch d, rest)
      | none => none
  | c :: rest => some (some c, .ch c, rest)

/-- Parse the body of a character class up to the closing `]`, with
`a-b` ranges; a `-` immediately before `]` is a literal. -/
def parseClassBody : Nat → List Char → List ClsAtom → Option (List ClsAtom × List Char)
  | 0, _, _ => none
  | _ + 1, ']' :: rest, acc => some (acc.reverse, rest)
  | f + 1, cs, acc =>
    match readClassItem cs with
    | none => none
    | some (lo?, atom, rest) =>
      match lo?, rest with
      | some lo, '-' :: rest2 =>
        match rest2 with
        | ']' :: _ => parseClassBody f rest (atom :: acc)
        | _ =>
          match readClassItem rest2 with
          | some (some hi, _, rest3) => parseClassBody f rest3 (.range lo hi :: acc)
          | _ => none
      | _, _ => parseClassBody f rest (atom :: acc)

mutual

/-- Alternation level of the pattern grammar. State: remaining characters,
next capture-group index, accumulated `(index, name)` pairs. -/
def parseAlt : Nat → List Char → Nat → List (Nat × String) →
    Option (RNode × List Char × Nat × List (Nat × String))
  | 0, _, _, _ => none
  | f + 1, cs, gi, names =>
    match parseSeq f cs gi names with
    | none => none
    | some (a, cs1, gi1, n1) =>
      match cs1 with
      | '|' :: rest =>
        match parseAlt f rest gi1 n1 with
        | none => none
        | some (b, cs2, gi2, n2) => some (.alt a b, cs2, gi2, n2)
      | _ => some (a, cs1, gi1, n1)
termination_by structural f _ _ _ => f

/-- Concatenation level: a run of quantified atoms. -/
def parseSeq : Nat → List Char → Nat → List (Nat × String) →
    Option (RNode × List Char × Nat × List (Nat × String))
  | 0, _, _, _ => none
  | f + 1, cs, gi, names =>
    match cs with
    | [] => some (.eps, [], gi, names)
    | ')' :: _ => some (.eps, cs, gi, names)
    | '|' :: _ => some (.eps, cs, gi, names)
    | _ =>
      match parseTerm f cs gi names with
      | none => none
      | some (a, cs1, gi1, n1) =>
        match parseSeq f cs1 gi1 n1 with
        | none => none
        | some (b, cs2, gi2, n2) => some (.seq a b, cs2, gi2, n2)
termination_by structural f _ _ _ => f

/-- An atom with an optional greedy quantifier (lazy quantifiers and
double quantifiers are outside the subset / syntax errors). -/
def parseTerm : Nat → List Char → Nat → List (Nat × String) →
    Option (RNode × List Char × Nat × List (Nat × String))
  | 0, _, _, _ => none
  | f + 1, cs, gi, names =>
    match parseAtom f cs gi names with
    | none => none
    | some (a, cs1, gi1, n1) =>
      match cs1 with
      | '*' :: '?' :: _ => none
      | '+' :: '?' :: _ => none
      | '?' :: '?' :: _ => none
      | '*' :: rest => some (.star a, rest, gi1, n1)
      | '+' :: rest => some (.plus a, rest, gi1, n1)
      | '?' :: rest => some (.opt a, rest, gi1, n1)
      | _ => some (a, cs1, gi1, n1)
termination_by structural f _ _ _ => f

/-- A single pattern atom. -/
def parseAtom : Nat → List Char → Nat → List (Nat × String) →
    Option (RNode × List Char × Nat × List (Nat × String))
  | 0, _, _, _ => none
  | f + 1, cs, gi, names =>
    match cs with
    | [] => none
    | '(' :: '?' :: ':' :: rest =>
      match parseAlt f rest gi names with
      | some (a, ')' :: cs1, gi1, n1) => some (a, cs1, gi1, n1)
      | _ => none
    | '(' :: '?' :: '<' :: rest =>
      match rest with
      | '=' :: _ => none
      | '!' :: _ => none
      | _ =>
        let nm := rest.takeWhile wordChar
        match nm, rest.dropWhile wordChar with
        | [], _ => none
        | _, '>' :: rest2 =>
          match parseAlt f rest2 (gi + 1) ((gi + 1, (⟨nm⟩ : String)) :: names) with
          | some (a, ')' :: cs1, gi1, n1) => some (.group (gi + 1) a, cs1, gi1, n1)
          | _ => none
        | _, _ => none
    | '(' :: '?' :: _ => none
    | '(' :: rest =>
      match parseAlt f rest (gi + 1) names with
      | some (a, ')' :: cs1, gi1, n1) => some (.group (gi + 1) a, cs1, gi1, n1)
      | _ => none
    | '[' :: '^' :: rest =>
      match parseClassBody (rest.length + 1) rest [] with
      | some (atoms, cs1) => some (.cls true atoms, cs1, gi, names)
      | none => none
    | '[' :: rest =>
      match parseClassBody (rest.length + 1) rest [] with
      | some (atoms, cs1) => some (.cls false atoms, cs1, gi, names)
      | none => none
    | '\\' :: [] => none
    | '\\' :: c :: rest =>
      match escClassAtom c with
      | some a => some (.cls false [a], rest, gi, names)
      | none =>
        match escCharLit c with
        | some d => some (.ch d, rest, gi, names)
        | none => none
    | '^' :: rest => some (.bol, rest, gi, names)
    | '$' :: rest => some (.eol, rest, gi, names)
    | '.' :: rest => some (.dot, rest, gi, names)
    | ')' :: _ => none
    | '|' :: _ => none
    | '*' :: _ => none
    | '+' :: _ => none
    | '?' :: _ => none
    | '\x7b' :: _ => none
    | '\x7d' :: _ => none
    | c :: rest => some (.ch c, rest, gi, names)
termination_by structural f _ _ _ => f

end

/-- A compiled regular expression: root node, number of capturing groups,
and the name (if any) of each group in index order. -/
structure Regex where
  root : RNode
  ngroups : Nat
  names : List (Option String)
deriving DecidableEq, Repr

/-- Model of `new RegExp(src, flags)` for the engine's flag sets: `some`
on success, `none` on a syntax error (or a construct outside the modelled
subset). The whole pattern must be consumed. -/
def compileRegex (src : String) : Option Regex :=
  match parseAlt (src.length * 4 + 16) src.data 0 [] with
  | some (node, [], gi, names) =>
    some ⟨node, gi, (List.range gi).map (fun i => names.lookup (i + 1))⟩
  | _ => none

/-- Case-insensitive character comparison (the `i` flag is always set). -/
def chEq (p c : Char) : Bool := p = c || p.toLower = c.toLower

/-- Does a class atom match a character (case-insensitively)? -/
def atomMatch : ClsAtom → Char → Bool
  | .ch p, c => chEq p c
  | .range lo hi, c =>
    (lo ≤ c && c ≤ hi) || (lo ≤ c.toLower && c.toLower ≤ hi) ||
    (lo ≤ c.toUpper && c.toUpper ≤ hi)
  | .digit, c => c.isDigit
  | .notDigit, c => !c.isDigit
  | .word, c => wordChar c
  | .notWord, c => !wordChar c
  | .space, c => jsWs c
  | .notSpace, c => !jsWs c

/-- Capture state: for each group index (1-based), the matched span. -/
abbrev Caps := List (Option (Nat × Nat))

def setCap (caps : Caps) (i : Nat) (v : Option (Nat × Nat)) : Caps :=
  caps.set (i - 1) v

/-- Indices of the capture groups contained in a node (cleared on each
quantifier iteration, per ECMAScript `RepeatMatcher`). -/
def groupIdxs : RNode → List Nat
  | .seq a b => groupIdxs a ++ groupIdxs b
  | .alt a b => groupIdxs a ++ groupIdxs b
  | .star a => groupIdxs a
  | .plus a => groupIdxs a
  | .opt a => groupIdxs a
  | .group i a => i :: groupIdxs a
  | _ => []

def clearCaps (idxs : List Nat) (caps : Caps) : Caps :=
  idxs.foldl (fun cs i => setCap cs i none) caps

mutual

/-- Backtracking matcher in continuation-passing style, ECMAScript
ordered-choice semantics with greedy quantifiers; the fuel bounds the
depth of the call tree and is chosen large enough at the call site. -/
def runM (input : List Char) : Nat → RNode → Nat → List Char → Caps →
    (Nat → List Char → Caps → Option (Nat × Caps)) → Option (Nat × Caps)
  | 0, _, _, _, _, _ => none
  | f + 1, node, pos, rest, caps, k =>
    match node with
    | .eps => k pos rest caps
    | .ch c =>
      match rest with
      | [] => none
      | d :: rest2 => if chEq c d then k (pos + 1) rest2 caps else none
    | .dot =>
      match rest with
      | [] => none
      | d :: rest2 => if lineTerm d then none else k (pos + 1) rest2 caps
    | .cls neg atoms =>
      match rest with
      | [] => none
      | d :: rest2 =>
        if (atoms.any (fun a => atomMatch a d)) != neg then k (pos + 1) rest2 caps
        else none
    | .bol =>
      if pos = 0 || (input.get? (pos - 1)).any lineTerm then k pos rest caps else none
    | .eol =>
      match rest with
      | [] => k pos rest caps
      | d :: _ => if lineTerm d then k pos rest caps else none
    | .seq a b => runM input f a pos rest caps (fun p r c => runM input f b p r c k)
    | .alt a b =>
      match runM input f a pos rest caps k with
      | some res => some res
      | none => runM input f b pos rest caps k
    | .group i a =>
      runM input f a pos rest caps (fun p r c => k p r (setCap c i (some (pos, p))))
    | .opt a =>
      match runM input f a pos rest (clearCaps (groupIdxs a) caps) k with
      | some res => some res
      | none => k pos rest caps
    | .star a => runStar input f a pos rest caps k
    | .plus a =>
      runM input f a pos rest (clearCaps (groupIdxs a) caps)
        (fun p r c => runStar input f a p r c k)
termination_by structural f _ _ _ _ _ => f

/-- Greedy `*` loop: try one more body iteration (which must consume at
least one character, per the ECMAScript empty-repetition rule), falling
back to the continuation. -/
def runStar (input : List Char) : Nat → RNode → Nat → List Char → Caps →
    (Nat → List Char → Caps → Option (Nat × Caps)) → Option (Nat × Caps)
  | 0, _, _, _, _, _ => none
  | f + 1, a, pos, rest, caps, k =>
    match runM input f a pos rest (clearCaps (groupIdxs a) caps)
        (fun p r c => if pos < p then runStar input f a p r c k else none) with
    | some res => some res
    | none => k pos rest caps
termination_by structural f _ _ _ _ _ => f

end

/-- Structural size of a node, used to budget the matcher fuel. -/
def nodeSize : RNode → Nat
  | .seq a b => nodeSize a + nodeSize b + 1
  | .alt a b => nodeSize a + nodeSize b + 1
  | .star a => nodeSize a + 1
  | .plus a => nodeSize a + 1
  | .opt a => nodeSize a + 1
  | .group _ a => nodeSize a + 1
  | _ => 1

/-- Fuel sufficient for any match of `re` against an input of length `n`:
the backtracker's call depth is bounded by the pattern size times the
number of quantifier iterations, which consume at least one character
each. -/
def matchFuel (re : Regex) (n : Nat) : Nat :=
  (nodeSize re.root + 2) * (n + 2) * 2 + 16

/-- Scan start positions left to right; the first position where the
backtracker succeeds wins (ECMAScript leftmost semantics). Returns
`(start, end, captures)`. -/
def scanFrom (re : Regex) (input : List Char) : Nat → Nat → Option (Nat × Nat × Caps)
  | 0, _ => none
  | f + 1, i =>
    match runM input (matchFuel re input.length) re.root i (input.drop i)
        (List.replicate re.ngroups none) (fun p _ c => some (p, c)) with
    | some (e, caps) => some (i, e, caps)
    | none => if input.length ≤ i then none else scanFrom re input f (i + 1)

def sliceStr (input : List Char) (s e : Nat) : String :=
  ⟨(input.drop s).take (e - s)⟩

/-- The parts of a JavaScript match object the engine reads: `m[0]`, the
positional groups `m[1..]`, and the `groups` object of named captures
(a name is present with value `undefined` when its group did not
participate, mirroring JavaScript). -/
structure JsMatch where
  fullMatch : String
  groups : List (Option String)
  named : List (String × Option String)
deriving DecidableEq, Repr

def mkMatch (re : Regex) (input : List Char) (i e : Nat) (caps : Caps) : JsMatch :=
  let groups := caps.map (fun c => c.map (fun p => sliceStr input p.1 p.2))
  { fullMatch := sliceStr input i e
    groups := groups
    named := (re.names.zip groups).filterMap (fun p => p.1.map (fun nm => (nm, p.2))) }

/-- Model of `text.match(re)` for a non-global regex: the first match. -/
def execRe (re : Regex) (s : String) : Option JsMatch :=
  (scanFrom re s.data (s.length + 1) 0).map
    (fun t => mkMatch re s.data t.1 t.2.1 t.2.2)

/-- The `matchAll` loop: repeated `exec` with `lastIndex` advancing to the
match end (plus one on an empty match). -/
def execAllGo (re : Regex) (input : List Char) : Nat → Nat → List JsMatch
  | 0, _ => []
  | f + 1, li =>
    if input.length < li then []
    else
      match scanFrom re input (input.length + 1) li with
      | none => []
      | some (i, e, caps) =>
        mkMatch re input i e caps :: execAllGo re input f (if e = i then i + 1 else e)

/-- Model of `Array.from(text.matchAll(re))` for a global regex. -/
def execAllRe (re : Regex) (s : String) : List JsMatch :=
  execAllGo re s.data (s.length + 2) 0

/-! ### The extraction engine
(`/api/admin/purchase-templates/test`, lines 131-200 of
`src/functions/src/index.ts`) -/

/-- The template shape the handler reads: five optional pattern strings. -/
structure Template where
  vendorRegex : Option String := none
  dateRegex : Option String := none
  totalRegex : Option String := none
  subtotalRegex : Option String := none
  itemsRegex : Option String := none
deriving DecidableEq, Repr

/-- `const build = (src, flags) => { if (!src) return null; try { return
new RegExp(src, flags || 'im'); } catch (e) { return null; } }`: an absent
or empty (falsy) pattern string, or one that fails to compile, yields no
matcher. The flags are always `im` or `gim` (see the regex model above). -/
def build (src : Option String) : Option Regex :=
  match src with
  | none => none
  | some s => if s = "" then none else compileRegex s

structure LineItem where
  productName : String
  qty : ℚ
  unit : String
  price : ℚ
deriving DecidableEq, Repr

/-- The `out` record: `{ raw: text, vendorName: '', purchaseDate: '',
subtotal: null, total: null, items: [] }` filled in field by field. -/
structure ExtractedRecord where
  raw : String
  vendorName : String
  purchaseDate : String
  subtotal : Option ℚ
  total : Option ℚ
  items : List LineItem
deriving DecidableEq, Repr

/-- JavaScript truthiness of a possibly-undefined string: defined and
non-empty. -/
def truthyStr (o : Option String) : Bool := o.any (fun s => s != "")

/-- `out.vendorName = m && m[1] ? m[1].trim() : (m && m[0] ? m[0].trim() :
'')` for a non-null match `m`. -/
def vendorFromMatch (m : JsMatch) : String :=
  if truthyStr (m.groups.getD 0 none) then jsTrim ((m.groups.getD 0 none).getD "")
  else if m.fullMatch != "" then jsTrim m.fullMatch
  else ""

/-- `out.purchaseDate = m ? m[0] : ''` for a non-null match `m`: the whole
match, verbatim. -/
def dateFromMatch (m : JsMatch) : String := m.fullMatch

/-- The money candidate `(m[1] || m[0] || '').toString()`. -/
def moneyCandidate (m : JsMatch) : String :=
  if truthyStr (m.groups.getD 0 none) then (m.groups.getD 0 none).getD ""
  else if m.fullMatch != "" then m.fullMatch
  else ""

/-- `Number(num) || null` where `num` is the candidate passed through the
two replaces: the totals/subtotal value from a match. -/
def moneyFromMatch (m : JsMatch) : Option ℚ :=
  jsNumOrNull (jsToNumber (normalizeNumber (moneyCandidate m)))

/-- Property access `g.key` on `const g = mm.groups || {}`: `undefined`
when the regex has no named group called `key`, otherwise that group's
capture (which is itself `undefined` when it did not participate). -/
def namedGet (m : JsMatch) (key : String) : Option String :=
  match m.named.lookup key with
  | some v => v
  | none => none

def truthyNamed (m : JsMatch) (key : String) : Bool :=
  truthyStr (namedGet m key)

def namedGetD (m : JsMatch) (key : String) : String := (namedGet m key).getD ""

/-- `g && (g.name || g.product || g.qty || g.price)`: the trigger for the
named-capture branch. Note the source tests `qty` but not `quantity`, and
does not test `unit`. -/
def namedTrigger (m : JsMatch) : Bool :=
  truthyNamed m "name" || truthyNamed m "product" ||
  truthyNamed m "qty" || truthyNamed m "price"

/-- The named-capture branch of the items loop:
`name = (g.name || g.product || '').trim(); qty = Number(g.qty ||
g.quantity || 0) || 0; price = Number((g.price || '')...replaces) || 0;
unit: g.unit || ''`. -/
def namedItemOfMatch (m : JsMatch) : LineItem :=
  { productName :=
      jsTrim (if truthyNamed m "name" then namedGetD m "name"
              else if truthyNamed m "product" then namedGetD m "product"
              else "")
    qty :=
      jsNumOr (if truthyNamed m "qty" then jsToNumber (namedGetD m "qty")
               else if truthyNamed m "quantity" then jsToNumber (namedGetD m "quantity")
               else some 0) 0
    unit := if truthyNamed m "unit" then namedGetD m "unit" else ""
    price := jsNumOr (jsToNumber (normalizeNumber
      (if truthyNamed m "price" then namedGetD m "price" else ""))) 0 }

/-- `const cap = Array.from(mm).slice(1).filter(v => typeof v !==
'undefined')`: the participating positional groups, compacted in order
(non-participating groups are removed, shifting later groups left). -/
def capList (m : JsMatch) : List String := m.groups.filterMap id

/-- The positional branch of the items loop: `cap` slots `[0..3]` read as
`[productName, qty, unit, price]`; `qty` is `Number(cap[1] || 0) || 0`
(no character stripping), `price` goes through the two replaces. -/
def posItemOfMatch (m : JsMatch) : LineItem :=
  let cap := capList m
  { productName := jsTrim (cap.getD 0 "")
    qty :=
      jsNumOr (match cap.get? 1 with
               | some s => jsToNumber s
               | none => some 0) 0
    unit := cap.getD 2 ""
    price := jsNumOr (jsToNumber (normalizeNumber (cap.getD 3 ""))) 0 }

/-- One iteration of `for (const mm of matches)`. -/
def itemOfMatch (m : JsMatch) : LineItem :=
  if namedTrigger m then namedItemOfMatch m else posItemOfMatch m

/-- The whole extraction body: compile the five matchers independently,
extract each field independently, return the fully-shaped record. -/
def assemble (text : String) (tpl : Template) : ExtractedRecord :=
  { raw := text
    vendorName :=
      match build tpl.vendorRegex with
      | none => ""
      | some re =>
        match execRe re text with
        | some m => vendorFromMatch m
        | none => ""
    purchaseDate :=
      match build tpl.dateRegex with
      | none => ""
      | some re =>
        match execRe re text with
        | some m => dateFromMatch m
        | none => ""
    subtotal :=
      match build tpl.subtotalRegex with
      | none => none
      | some re =>
        match execRe re text with
        | some m => moneyFromMatch m
        | none => none
    total :=
      match build tpl.totalRegex with
      | none => none
      | some re =>
        match execRe re text with
        | some m => moneyFromMatch m
        | none => none
    items :=
      match build tpl.itemsRegex with
      | none => []
      | some re => (execAllRe re text).map itemOfMatch }

/-- The request body shape the handler reads. -/
structure ReqBody where
  text : Option String := none
  template : Option Template := none
deriving DecidableEq, Repr

structure ApiError where
  status : Nat
  error : String
deriving DecidableEq, Repr

structure ParsedResponse where
  parsed : ExtractedRecord
deriving DecidableEq, Repr

/-- The `/api/admin/purchase-templates/test` handler:
`text = (req.body && req.body.text) ? String(req.body.text) : ''`, reject
with HTTP 400 when falsy, otherwise run the extraction and answer
`{ parsed: out }`. Modelled detail: when the body carries no `template`
field the source falls back to the body object itself; for the typed
request shape here (only `text` and `template` keys) that object exposes
no pattern fields, so it behaves as the empty template. -/
def handleTemplateTest (body : ReqBody) : Except ApiError ParsedResponse :=
  let tpl := body.template.getD {}
  let text := (body.text.getD "")
  if text = "" then Except.error ⟨400, "text required to test template"⟩
  else Except.ok ⟨assemble text tpl⟩


/-! ### Sign facts about numeric normalization -/

theorem mem_of_jsTrimList {x : Char} {l : List Char} (h : x ∈ jsTrimList l) : x ∈ l := by
  unfold jsTrimList at h
  rw [List.mem_reverse] at h
  have h2 := (List.dropWhile_sublist jsWs).subset h
  rw [List.mem_reverse] at h2
  exact (List.dropWhile_sublist jsWs).subset h2

theorem mkRat_natCast_nonneg (m d : Nat) : 0 ≤ mkRat (m : Int) d := by
  rw [Rat.mkRat_eq_div]
  positivity

theorem decValue_nonneg (ip fp nf : Nat) (e : Int) : 0 ≤ decValue ip fp nf e := by
  unfold decValue
  cases e with
  | ofNat k => exact mkRat_natCast_nonneg _ _
  | negSucc k => exact mkRat_natCast_nonneg _ _

theorem parseDecimal_nonneg {cs : List Char} {q : ℚ} (h : parseDecimal cs = some q) :
    0 ≤ q := by
  simp only [parseDecimal] at h
  by_cases h1 : cs = infinityChars
  · rw [if_pos h1] at h
    exact Option.noConfusion h
  · rw [if_neg h1] at h
    split at h <;>
      split_ifs at h <;>
        first
        | exact Option.noConfusion h
        | (rw [Option.map_eq_some'] at h
           obtain ⟨e, _, rfl⟩ := h
           exact decValue_nonneg _ _ _ _)

theorem jsToNumber_nonneg {s : String} (hm : '-' ∉ s.data) {q : ℚ}
    (h : jsToNumber s = some q) : 0 ≤ q := by
  have hm2 : '-' ∉ jsTrimList s.data := fun hc => hm (mem_of_jsTrimList hc)
  simp only [jsToNumber] at h
  split at h
  · rw [Option.some_inj] at h
    subst h
    norm_num
  · exact parseDecimal_nonneg h
  · rename_i rest heq
    exact absurd (by rw [heq]; exact List.mem_cons_self '-' rest) hm2
  · split_ifs at h with hx ho hb2 <;>
      first
      | exact parseDecimal_nonneg h
      | (split at h
         · rw [Option.some_inj] at h
           subst h
           exact mkRat_natCast_nonneg _ _
         · exact Option.noConfusion h)
  · exact parseDecimal_nonneg h

theorem normalizeNumber_no_minus (s : String) : '-' ∉ (normalizeNumber s).data := by
  intro hc
  have hc2 : '-' ∈ (s.data.filter numericKeep).filter (fun c => c ≠ ',') := hc
  rw [List.mem_filter] at hc2
  have hc3 := hc2.1
  rw [List.mem_filter] at hc3
  have hk : numericKeep '-' = true := hc3.2
  simp [numericKeep] at hk

theorem jsNumOr_normalize_nonneg (s : String) :
    0 ≤ jsNumOr (jsToNumber (normalizeNumber s)) 0 := by
  unfold jsNumOr
  split
  · rename_i q0 heq
    split_ifs with h0
    · norm_num
    · exact jsToNumber_nonneg (normalizeNumber_no_minus s) heq
  · norm_num

theorem itemOfMatch_price_nonneg (m : JsMatch) : 0 ≤ (itemOfMatch m).price := by
  unfold itemOfMatch
  split
  · exact jsNumOr_normalize_nonneg _
  · exact jsNumOr_normalize_nonneg _

theorem moneyFromMatch_pos {m : JsMatch} {q : ℚ} (h : moneyFromMatch m = some q) :
    0 < q := by
  unfold moneyFromMatch jsNumOrNull at h
  split at h
  · rename_i q0 heq
    split_ifs at h with h0
    rw [Option.some_inj] at h
    subst h
    exact lt_of_le_of_ne
      (jsToNumber_nonneg (normalizeNumber_no_minus (moneyCandidate m)) heq)
      (Ne.symm h0)
  · exact Option.noConfusion h


/-! ### Claim theorems -/

set_option maxRecDepth 16000

/-- The five template fields. -/
inductive TField where
  | vendor
  | date
  | total
  | subtotal
  | items
deriving DecidableEq, Repr

def fieldPattern (tpl : Template) : TField → Option String
  | .vendor => tpl.vendorRegex
  | .date => tpl.dateRegex
  | .total => tpl.totalRegex
  | .subtotal => tpl.subtotalRegex
  | .items => tpl.itemsRegex

def clearField (tpl : Template) : TField → Template
  | .vendor => { tpl with vendorRegex := none }
  | .date => { tpl with dateRegex := none }
  | .total => { tpl with totalRegex := none }
  | .subtotal => { tpl with subtotalRegex := none }
  | .items => { tpl with itemsRegex := none }

def fieldIsDefault (f : TField) (r : ExtractedRecord) : Prop :=
  match f with
  | .vendor => r.vendorName = ""
  | .date => r.purchaseDate = ""
  | .total => r.total = none
  | .subtotal => r.subtotal = none
  | .items => r.items = []

theorem build_none : build none = none := rfl

/-- C1: for any non-empty text and any template in which some field's
pattern string is present but fails to compile, the extraction result is
exactly the result for the template with that pattern removed (so the
invalid field sits at its default and every other field is extracted as
if the invalid one were absent), and the handler answers success, raising
no error to the caller. -/
theorem c1_invalid_pattern_isolated (text : String) (htext : text ≠ "")
    (tpl : Template) (f : TField) (p : String)
    (hp : fieldPattern tpl f = some p) (hinv : compileRegex p = none) :
    assemble text tpl = assemble text (clearField tpl f) ∧
    fieldIsDefault f (assemble text tpl) ∧
    handleTemplateTest ⟨some text, some tpl⟩ = Except.ok ⟨assemble text tpl⟩ := by
  have hb : build (fieldPattern tpl f) = none := by
    rw [hp]
    by_cases hpe : p = ""
    · simp [build, hpe]
    · simp [build, hpe, hinv]
  have hh : handleTemplateTest ⟨some text, some tpl⟩ = Except.ok ⟨assemble text tpl⟩ := by
    simp [handleTemplateTest, htext]
  cases f with
  | vendor =>
    simp only [fieldPattern] at hb
    exact ⟨by simp [assemble, clearField, hb, build_none], by simp [fieldIsDefault, assemble, hb], hh⟩
  | date =>
    simp only [fieldPattern] at hb
    exact ⟨by simp [assemble, clearField, hb, build_none], by simp [fieldIsDefault, assemble, hb], hh⟩
  | total =>
    simp only [fieldPattern] at hb
    exact ⟨by simp [assemble, clearField, hb, build_none], by simp [fieldIsDefault, assemble, hb], hh⟩
  | subtotal =>
    simp only [fieldPattern] at hb
    exact ⟨by simp [assemble, clearField, hb, build_none], by simp [fieldIsDefault, assemble, hb], hh⟩
  | items =>
    simp only [fieldPattern] at hb
    exact ⟨by simp [assemble, clearField, hb, build_none], by simp [fieldIsDefault, assemble, hb], hh⟩

/-- Witness for C1 at a concrete input: the unbalanced pattern `"("` for
the vendor field degrades to the default while the date field still
extracts. -/
theorem c1_witness :
    assemble "Date: 2024-01-15" { vendorRegex := some "(", dateRegex := some "Date: (\\S+)" } =
      assemble "Date: 2024-01-15"
        (clearField { vendorRegex := some "(", dateRegex := some "Date: (\\S+)" } TField.vendor) ∧
    fieldIsDefault TField.vendor
      (assemble "Date: 2024-01-15" { vendorRegex := some "(", dateRegex := some "Date: (\\S+)" }) ∧
    handleTemplateTest
        ⟨some "Date: 2024-01-15", some { vendorRegex := some "(", dateRegex := some "Date: (\\S+)" }⟩ =
      Except.ok ⟨assemble "Date: 2024-01-15" { vendorRegex := some "(", dateRegex := some "Date: (\\S+)" }⟩ :=
  c1_invalid_pattern_isolated "Date: 2024-01-15" (by decide)
    { vendorRegex := some "(", dateRegex := some "Date: (\\S+)" }
    TField.vendor "(" (by decide) (by decide)

/-- C2: for any non-empty text and any template value the handler returns
success (no template-related error), with a fully-shaped record (the
record type has all six fields by construction) whose `raw` is the input
text verbatim. -/
theorem c2_total_shape_and_echo (t : String) (ht : t ≠ "") (tplv : Option Template) :
    ∃ rec : ExtractedRecord,
      handleTemplateTest ⟨some t, tplv⟩ = Except.ok ⟨rec⟩ ∧ rec.raw = t := by
  refine ⟨assemble t (tplv.getD {}), ?_, ?_⟩
  · simp [handleTemplateTest, ht]
  · simp [assemble]

/-- Witness for C2 at a concrete input. -/
theorem c2_witness :
    ∃ rec : ExtractedRecord,
      handleTemplateTest ⟨some "x", none⟩ = Except.ok ⟨rec⟩ ∧ rec.raw = "x" :=
  c2_total_shape_and_echo "x" (by decide) none

/-- C3 counterexample: the spec's representative `"Rs. 2,000"` does not
normalize to `2000`: the `.` of `"Rs."` survives the character strip
(only `[^0-9.,]` is removed), so the engine parses `".2000"`, which is
`1/5`, not `2000`. -/
theorem c3_counterexample :
    jsToNumber (normalizeNumber "Rs. 2,000") = some (mkRat 1 5) ∧
    (mkRat 1 5 : ℚ) = 1/5 ∧
    jsToNumber (normalizeNumber "Rs. 2,000") ≠ some (2000 : ℚ) := by
  refine ⟨by decide, by rw [Rat.mkRat_eq_div]; norm_num, by decide⟩

/-- C3 amended: normalization strips every character outside `[0-9.,]`,
then removes the commas, then parses; `"₹1,234.50"` gives `1234.5`,
`"Rs. 2,000"` gives `0.2` (the dot of `"Rs."` is kept), and `"abc"` gives
the number `0`, which the total/subtotal assignment `Number(num) || null`
turns into the absent value. -/
theorem c3_normalization_values :
    normalizeNumber "₹1,234.50" = "1234.50" ∧
    jsToNumber (normalizeNumber "₹1,234.50") = some (mkRat 2469 2) ∧
    (mkRat 2469 2 : ℚ) = 1234.5 ∧
    normalizeNumber "Rs. 2,000" = ".2000" ∧
    jsToNumber (normalizeNumber "Rs. 2,000") = some (mkRat 1 5) ∧
    (mkRat 1 5 : ℚ) = 0.2 ∧
    normalizeNumber "abc" = "" ∧
    jsToNumber (normalizeNumber "abc") = some 0 ∧
    jsNumOrNull (jsToNumber (normalizeNumber "abc")) = none := by
  refine ⟨by decide, by decide, by rw [Rat.mkRat_eq_div]; norm_num, by decide, by decide,
    by rw [Rat.mkRat_eq_div]; norm_num, by decide, by decide, by decide⟩

/-- The end-to-end scenario text of the spec. -/
def acmeText : String :=
  "Acme Store\nDate: 2024-01-15\nItem A 2 pcs 50.00\nItem B 1 pcs 30.00\nTotal: ₹130.00"

/-- The end-to-end scenario template of the spec. -/
def acmeTemplate : Template :=
  { vendorRegex := some "^(.+)$"
    dateRegex := some "Date: (\\S+)"
    totalRegex := some "Total:\\s*[₹]?([0-9,\\.]+)"
    itemsRegex := some "(\\w+ \\w)\\s+(\\d+)\\s+(\\w+)\\s+([0-9\\.]+)" }

/-- C4 counterexample: on the spec's end-to-end scenario the date field is
the WHOLE match (`m[0]`), so `purchaseDate` is `"Date: 2024-01-15"`, not
the claimed `"2024-01-15"`. -/
theorem c4_counterexample :
    (assemble acmeText acmeTemplate).purchaseDate ≠ "2024-01-15" := by decide

/-- C4 amended: the end-to-end scenario yields vendor `"Acme Store"`,
`purchaseDate = "Date: 2024-01-15"` (the whole date match), total `130`,
and exactly the two items in order. -/
theorem c4_end_to_end :
    assemble acmeText acmeTemplate =
      { raw := acmeText
        vendorName := "Acme Store"
        purchaseDate := "Date: 2024-01-15"
        subtotal := none
        total := some 130
        items := [⟨"Item A", 2, "pcs", 50⟩, ⟨"Item B", 1, "pcs", 30⟩] } := by decide

/-- C5 counterexample: a matched total of `"0"` normalizes to the valid
number `0`, yet `Number(num) || null` maps it to null, so the field does
not equal the successfully normalized number. -/
theorem c5_counterexample :
    jsToNumber (normalizeNumber "0") = some 0 ∧
    (assemble "Total: 0" { totalRegex := some "Total: (\\d+)" }).total = none := by
  constructor
  · decide
  · decide

/-- C5 amended: for total and subtotal, when the matcher finds a match the
candidate is the first capture group if present and non-empty, else the
whole match if non-empty, else the empty string; the candidate is
normalized and parsed, and the field equals the parsed number when it is
a valid nonzero number and is null when parsing fails or yields 0 (the
zero is collapsed into null by `Number(num) || null`); an absent matcher
or no match leaves the field null. -/
theorem c5_money_pipeline (text : String) (tpl : Template) :
    (assemble text tpl).total =
      (match build tpl.totalRegex with
       | none => none
       | some re =>
         match execRe re text with
         | none => none
         | some m => jsNumOrNull (jsToNumber (normalizeNumber (moneyCandidate m)))) ∧
    (assemble text tpl).subtotal =
      (match build tpl.subtotalRegex with
       | none => none
       | some re =>
         match execRe re text with
         | none => none
         | some m => jsNumOrNull (jsToNumber (normalizeNumber (moneyCandidate m)))) := by
  constructor
  · simp only [assemble]
    cases hb : build tpl.totalRegex with
    | none => rfl
    | some re =>
      dsimp only
      cases he : execRe re text with
      | none => rfl
      | some m => rfl
  · simp only [assemble]
    cases hb : build tpl.subtotalRegex with
    | none => rfl
    | some re =>
      dsimp only
      cases he : execRe re text with
      | none => rfl
      | some m => rfl

/-- C6 counterexample: in the positional strategy, `qty` is passed to
`Number` without any stripping, so a captured `"1,000"` (which numeric
normalization would turn into `1000`) is `NaN` and defaults to `0`. -/
theorem c6_counterexample :
    (assemble "Apple 1,000 pcs ₹50"
        { itemsRegex := some "(\\w+) ([0-9,]+) (\\w+) (₹[0-9]+)" }).items =
      [⟨"Apple", 0, "pcs", 50⟩] ∧
    ([⟨"Apple", 0, "pcs", 50⟩] : List LineItem) ≠ [⟨"Apple", 1000, "pcs", 50⟩] := by
  constructor
  · decide
  · decide

/-- C6 amended: the positional strategy first compacts the participating
capture groups (undefined groups are removed, shifting later groups
left), then reads the compacted list in order as
`[productName, qty, unit, price]` with defaults for missing slots;
`productName` is trimmed, `price` is stripped of non-`[0-9.,]` characters
and of commas before parsing, but `qty` is parsed by `Number` on the raw
capture without any stripping, and `unit` is verbatim. -/
theorem c6_positional_strategy (m : JsMatch) :
    (namedTrigger m = false → itemOfMatch m = posItemOfMatch m) ∧
    posItemOfMatch m =
      { productName := jsTrim ((m.groups.filterMap id).getD 0 "")
        qty := jsNumOr (match (m.groups.filterMap id).get? 1 with
                        | some s => jsToNumber s
                        | none => some 0) 0
        unit := (m.groups.filterMap id).getD 2 ""
        price := jsNumOr (jsToNumber (normalizeNumber ((m.groups.filterMap id).getD 3 ""))) 0 } := by
  constructor
  · intro h
    simp [itemOfMatch, h]
  · rfl

/-- Witness for C6 at a concrete match. -/
theorem c6_witness :
    itemOfMatch ⟨"Apple 1,000 pcs ₹50",
        [some "Apple", some "1,000", some "pcs", some "₹50"], []⟩ =
      posItemOfMatch ⟨"Apple 1,000 pcs ₹50",
        [some "Apple", some "1,000", some "pcs", some "₹50"], []⟩ :=
  (c6_positional_strategy _).1 (by decide)

/-- C7 counterexample: a match whose only named capture is `quantity`
takes the positional branch (the trigger tests only `name`, `product`,
`qty`, `price`), producing `{productName := "3", qty := 0}` instead of
the named-strategy `{productName := "", qty := 3}`. -/
theorem c7_counterexample :
    (assemble "3 x apples" { itemsRegex := some "(?<quantity>\\d+) x (\\w+)" }).items =
      [⟨"3", 0, "", 0⟩] ∧
    truthyNamed ⟨"3 x apples", [some "3", some "apples"], [("quantity", some "3")]⟩
        "quantity" = true ∧
    itemOfMatch ⟨"3 x apples", [some "3", some "apples"], [("quantity", some "3")]⟩ =
      posItemOfMatch ⟨"3 x apples", [some "3", some "apples"], [("quantity", some "3")]⟩ ∧
    posItemOfMatch ⟨"3 x apples", [some "3", some "apples"], [("quantity", some "3")]⟩ ≠
      namedItemOfMatch ⟨"3 x apples", [some "3", some "apples"], [("quantity", some "3")]⟩ := by
  refine ⟨by decide, by decide, by decide, by decide⟩

/-- C7 amended: the named-capture strategy is chosen exactly when one of
the named captures `name`, `product`, `qty`, `price` is present and
non-empty; `quantity` and `unit` do not trigger it (a match whose only
named capture is `quantity` or `unit` uses the positional strategy), and
the items list is the per-match strategy result over all matches in
order. -/
theorem c7_strategy_choice (text : String) (tpl : Template) (m : JsMatch) :
    namedTrigger m =
      (truthyNamed m "name" || truthyNamed m "product" ||
       truthyNamed m "qty" || truthyNamed m "price") ∧
    itemOfMatch m = (if namedTrigger m then namedItemOfMatch m else posItemOfMatch m) ∧
    (assemble text tpl).items =
      (match build tpl.itemsRegex with
       | none => []
       | some re => (execAllRe re text).map itemOfMatch) := by
  refine ⟨rfl, rfl, ?_⟩
  simp only [assemble]

/-- C8 counterexample: a first capture group consisting only of whitespace
is truthy, so it is selected and then trimmed to the empty string; the
engine does NOT fall back to the whole match trimmed (which would be
`"V:  x"`). -/
theorem c8_counterexample :
    (assemble "V:  x" { vendorRegex := some "V:(\\s+)x" }).vendorName = "" ∧
    jsTrim "V:  x" = "V:  x" ∧
    ("" : String) ≠ "V:  x" := by
  refine ⟨by decide, by decide, by decide⟩

/-- C8 amended: the first capture group is selected when it participates
and is non-empty BEFORE trimming (trimming is applied after selection),
else the whole match when non-empty, trimmed, else the empty string; a
whitespace-only first group therefore yields the empty string. -/
theorem c8_vendor_selection (text : String) (tpl : Template) :
    (assemble text tpl).vendorName =
      (match build tpl.vendorRegex with
       | none => ""
       | some re =>
         match execRe re text with
         | none => ""
         | some m =>
           if truthyStr (m.groups.getD 0 none) then jsTrim ((m.groups.getD 0 none).getD "")
           else if m.fullMatch != "" then jsTrim m.fullMatch
           else "") := by
  simp only [assemble]
  cases hb : build tpl.vendorRegex with
  | none => rfl
  | some re =>
    dsimp only
    cases he : execRe re text with
    | none => rfl
    | some m => rfl

/-- C9: a request whose text is present but empty is rejected with the 400
"text required" error exactly like a request with no text at all, before
any extraction; and a successful response never carries an empty raw
text. -/
theorem c9_empty_text_rejected (tplv : Option Template) (body : ReqBody)
    (r : ParsedResponse) (hok : handleTemplateTest body = Except.ok r) :
    handleTemplateTest ⟨some "", tplv⟩ =
      Except.error ⟨400, "text required to test template"⟩ ∧
    handleTemplateTest ⟨none, tplv⟩ =
      Except.error ⟨400, "text required to test template"⟩ ∧
    r.parsed.raw ≠ "" := by
  refine ⟨by simp [handleTemplateTest], by simp [handleTemplateTest], ?_⟩
  simp only [handleTemplateTest] at hok
  split_ifs at hok with hemp
  rw [Except.ok.injEq] at hok
  rw [← hok]
  simpa [assemble] using hemp

/-- Witness for C9 at a concrete input. -/
theorem c9_witness :
    handleTemplateTest ⟨some "", none⟩ =
      Except.error ⟨400, "text required to test template"⟩ ∧
    handleTemplateTest ⟨none, none⟩ =
      Except.error ⟨400, "text required to test template"⟩ ∧
    (ParsedResponse.mk (assemble "x" {})).parsed.raw ≠ "" :=
  c9_empty_text_rejected none ⟨some "x", none⟩ ⟨assemble "x" {}⟩ (by rfl)

/-- C10: in every returned record, total and subtotal are null or strictly
positive (normalization strips minus signs, and a parsed 0 is collapsed
into null), and every line item's price is non-negative. -/
theorem c10_money_sign_invariant (text : String) (tpl : Template) :
    (match (assemble text tpl).total with
     | some q => 0 < q
     | none => True) ∧
    (match (assemble text tpl).subtotal with
     | some q => 0 < q
     | none => True) ∧
    (assemble text tpl).items.all (fun it => decide (0 ≤ it.price)) = true := by
  refine ⟨?_, ?_, ?_⟩
  · simp only [assemble]
    cases hb : build tpl.totalRegex with
    | none => trivial
    | some re =>
      dsimp only
      cases he : execRe re text with
      | none => trivial
      | some m =>
        dsimp only
        cases hmv : moneyFromMatch m with
        | none => trivial
        | some q => exact moneyFromMatch_pos hmv
  · simp only [assemble]
    cases hb : build tpl.subtotalRegex with
    | none => trivial
    | some re =>
      dsimp only
      cases he : execRe re text with
      | none => trivial
      | some m =>
        dsimp only
        cases hmv : moneyFromMatch m with
        | none => trivial
        | some q => exact moneyFromMatch_pos hmv
  · simp only [assemble]
    cases hb : build tpl.itemsRegex with
    | none => rfl
    | some re =>
      dsimp only
      rw [List.all_eq_true]
      intro it hit
      rw [List.mem_map] at hit
      obtain ⟨m, _, rfl⟩ := hit
      exact decide_eq_true (itemOfMatch_price_nonneg m)


end ReceiptSpec
